import Mathlib

/-!
A shallow embedding of the mailyak library (setters.go and the MailYak
core file) together with proofs about it.

Modelling conventions:
* Go strings are Lean `String`s; the character-level behaviour of the
  compiled regular expression "\r?\n" (the only regex in the program,
  compiled identically by both constructors) is given operationally on
  the underlying character list.
* The `smtp.Auth` value supplied by the caller is opaque to the program
  apart from its nil-ness, so the embedding is polymorphic in the type
  of the credential payload.
* Network effects of Send are modelled by an environment record that
  fixes the server's advertised extensions and the outcome of each
  wire operation, plus a trace of the commands the client issues.
-/

/-- Operational model of Go's trimRegex.ReplaceAllString(s, "") for the
pattern "\r?\n": scanning left to right, a '\r' immediately followed by
'\n' is removed as a pair, a bare '\n' is removed, and every other
character (including a '\r' not followed by '\n') is kept. -/
def stripCRLF : List Char → List Char
  | [] => []
  | [c] => if c = '\n' then [] else [c]
  | c :: d :: rest =>
    if c = '\r' ∧ d = '\n' then stripCRLF rest
    else if c = '\n' then stripCRLF (d :: rest)
    else c :: stripCRLF (d :: rest)

/-- String-level wrapper of the trimRegex replacement used by the setters. -/
def sanitize (s : String) : String := String.mk (stripCRLF s.data)

/-- Modelled from the spec: BodyPart holds one textual body variant's raw
content (the concrete buffer-backed type is not among the given sources). -/
structure BodyPart where
  content : String
deriving DecidableEq, Repr

/-- Modelled from the spec: an attachment holds a filename, raw byte
content and an optional explicit MIME content type (the concrete type is
not among the given sources). -/
structure attachment where
  filename : String
  content : List Nat
  contentType : Option String
deriving DecidableEq, Repr

/-- The MailYak struct. The type is polymorphic in α, the payload of the
caller-supplied smtp.Auth credential, which the program never inspects
beyond comparing it with nil (modelled as Option α). The trimRegex field
holds the source pattern of the compiled regex (both constructors compile
the constant pattern "\r?\n", whose semantics is stripCRLF); the headers
map is modelled as an association list. -/
structure MailYak (α : Type) where
  html : BodyPart
  plain : BodyPart
  toAddrs : List String
  ccAddrs : List String
  bccAddrs : List String
  subject : String
  fromAddr : String
  fromName : String
  replyTo : String
  headers : List (String × String)
  attachments : List attachment
  auth : Option α
  trimRegex : String
  host : String
  writeBccHeader : Bool
  date : String

/-- The loop of the To and Bcc setters: a fresh list the size of the
argument list whose i-th entry is the sanitized i-th argument. -/
def sanitizeAll : List String → List String
  | [] => []
  | a :: rest => sanitize a :: sanitizeAll rest

/-- To sets a list of recipient addresses: it allocates a fresh list the
size of the argument list and stores the sanitized form of each argument. -/
def MailYak.To {α : Type} (m : MailYak α) (addrs : List String) : MailYak α :=
  { m with toAddrs := sanitizeAll addrs }

/-- Bcc sets a list of blind carbon copy addresses, sanitizing each. -/
def MailYak.Bcc {α : Type} (m : MailYak α) (addrs : List String) : MailYak α :=
  { m with bccAddrs := sanitizeAll addrs }

/-- From sets the sender email address (stored verbatim in the source). -/
def MailYak.From {α : Type} (m : MailYak α) (addr : String) : MailYak α :=
  { m with fromAddr := addr }

/-- FromName sets the sender name (stored verbatim in the source). -/
def MailYak.FromName {α : Type} (m : MailYak α) (name : String) : MailYak α :=
  { m with fromName := name }

/-- ReplyTo sets the Reply-To email address (stored verbatim in the source). -/
def MailYak.ReplyTo {α : Type} (m : MailYak α) (addr : String) : MailYak α :=
  { m with replyTo := addr }

/-- Subject sets the email subject line, sanitized through the trim regex. -/
def MailYak.Subject {α : Type} (m : MailYak α) (sub : String) : MailYak α :=
  { m with subject := sanitize sub }

/-- Host sets the SMTP host. -/
def MailYak.Host {α : Type} (m : MailYak α) (value : String) : MailYak α :=
  { m with host := value }

/-- Auth sets the smtp.Auth credential value. -/
def MailYak.Auth {α : Type} (m : MailYak α) (value : Option α) : MailYak α :=
  { m with auth := value }

/-- GetToAddrs test accessor. -/
def MailYak.GetToAddrs {α : Type} (m : MailYak α) : List String := m.toAddrs

/-- GetCCAddrs test accessor. -/
def MailYak.GetCCAddrs {α : Type} (m : MailYak α) : List String := m.ccAddrs

/-- GetBCCAddrs test accessor. -/
def MailYak.GetBCCAddrs {α : Type} (m : MailYak α) : List String := m.bccAddrs

/-- GetSubject test accessor. -/
def MailYak.GetSubject {α : Type} (m : MailYak α) : String := m.subject

/-- GetFromAddr test accessor. -/
def MailYak.GetFromAddr {α : Type} (m : MailYak α) : String := m.fromAddr

/-- GetFromName test accessor. -/
def MailYak.GetFromName {α : Type} (m : MailYak α) : String := m.fromName

/-- GetReplyTo test accessor. -/
def MailYak.GetReplyTo {α : Type} (m : MailYak α) : String := m.replyTo

/-- NewBlank returns a fresh MailYak: empty headers map, the compiled trim
regex, writeBccHeader false, and the current time formatted per RFC 1123Z
(time.Now() is an effect, so the formatted timestamp is a parameter). -/
def NewBlank {α : Type} (now : String) : MailYak α :=
  { html := ⟨""⟩, plain := ⟨""⟩, toAddrs := [], ccAddrs := [], bccAddrs := []
    subject := "", fromAddr := "", fromName := "", replyTo := ""
    headers := [], attachments := [], auth := none
    trimRegex := "\r?\n", host := "", writeBccHeader := false, date := now }

/-- New returns a MailYak configured with the given host and auth, and is
otherwise identical to NewBlank. -/
def New {α : Type} (host : String) (auth : Option α) (now : String) : MailYak α :=
  { (NewBlank now : MailYak α) with host := host, auth := auth }

/-- SMTP commands the client can issue on the wire during Send, recorded
in the order they are sent. hello carries the caller-supplied local host
name, mail the envelope sender, rcpt the envelope recipient, and write
the bytes of the assembled MIME document. -/
inductive Cmd where
  | dial : Cmd
  | hello : String → Cmd
  | startTLS : Cmd
  | auth : Cmd
  | mail : String → Cmd
  | rcpt : String → Cmd
  | data : Cmd
  | write : List Nat → Cmd
  | closeData : Cmd
  | readResponse : Cmd
deriving DecidableEq, Repr

/-- Environment of one Send attempt: the outcome buildMime would produce
(buildMime's body is not among the given sources, so its result is an
input), the server's advertised extensions, and the error outcome of each
wire operation. Errors are their Go error strings; none means success.
authErr is the error smtp.Client.Auth would return; the source discards
it, so the model never reads this field. -/
structure SmtpEnv where
  buildResult : Except String (List Nat)
  dialErr : Option String
  helloErr : Option String
  hasSTARTTLS : Bool
  startTLSErr : Option String
  hasAUTH : Bool
  authErr : Option String
  mailErr : Option String
  rcptErr : String → Option String
  dataErr : Option String
  writeErr : Option String
  closeErr : Option String
  readCode : Int
  readMsg : String
  readErr : Option String

/-- Result triple of Send: the int code, message string and error of Go's
(int, string, error) return value, with nil errors as none. -/
abbrev SendRet := Int × String × Option String

/-- Failure return value of Send: (-1, "", err). -/
def sendFail (e : String) : SendRet := (-1, "", some e)

/-- The RCPT TO loop of Send: issue one rcpt command per address in order
and stop at the first rejection, returning its error. -/
def rcptLoop (addrs : List String) (f : String → Option String)
    (acc : List Cmd) : Option String × List Cmd :=
  match addrs with
  | [] => (none, acc)
  | a :: rest =>
    match f a with
    | some e => (some e, acc ++ [Cmd.rcpt a])
    | none => rcptLoop rest f (acc ++ [Cmd.rcpt a])

/-- Tail of Send from the DATA command onward: open the data stream,
write the assembled buffer, close the stream, then read and return the
server's final response. -/
def sendFinish (env : SmtpEnv) (buf : List Nat) (acc : List Cmd) :
    SendRet × List Cmd :=
  match env.dataErr with
  | some e => (sendFail e, acc ++ [Cmd.data])
  | none =>
    match env.writeErr with
    | some e => (sendFail e, acc ++ [Cmd.data, Cmd.write buf])
    | none =>
      match env.closeErr with
      | some e => (sendFail e, acc ++ [Cmd.data, Cmd.write buf, Cmd.closeData])
      | none =>
        ((env.readCode, env.readMsg, env.readErr),
          acc ++ [Cmd.data, Cmd.write buf, Cmd.closeData, Cmd.readResponse])

/-- Envelope stage of Send: MAIL FROM with the stored sender, then the
RCPT TO loop over the To list, then the data stage. -/
def sendEnvelope {α : Type} (m : MailYak α) (env : SmtpEnv) (buf : List Nat)
    (acc : List Cmd) : SendRet × List Cmd :=
  match env.mailErr with
  | some e => (sendFail e, acc ++ [Cmd.mail m.fromAddr])
  | none =>
    match rcptLoop m.toAddrs env.rcptErr (acc ++ [Cmd.mail m.fromAddr]) with
    | (some e, tr) => (sendFail e, tr)
    | (none, tr) => sendFinish env buf tr

/-- Auth stage of Send: when the server advertises AUTH and an
authenticator is configured, smtp.Client.Auth is called, but the source
discards its error, so the run continues into the envelope stage
regardless of env.authErr. -/
def sendAuth {α : Type} (m : MailYak α) (env : SmtpEnv) (buf : List Nat)
    (acc : List Cmd) : SendRet × List Cmd :=
  if env.hasAUTH && m.auth.isSome then
    sendEnvelope m env buf (acc ++ [Cmd.auth])
  else
    sendEnvelope m env buf acc

/-- Send: build the MIME document, dial, greet with the caller-supplied
local host name, opportunistically STARTTLS, optionally authenticate,
then envelope and data stages. Every checked error returns immediately
as (-1, "", err). The trace component records the wire commands issued. -/
def MailYak.Send {α : Type} (m : MailYak α) (localHostName : String)
    (env : SmtpEnv) : SendRet × List Cmd :=
  match env.buildResult with
  | Except.error e => (sendFail e, [])
  | Except.ok buf =>
    match env.dialErr with
    | some e => (sendFail e, [Cmd.dial])
    | none =>
      match env.helloErr with
      | some e => (sendFail e, [Cmd.dial, Cmd.hello localHostName])
      | none =>
        if env.hasSTARTTLS then
          match env.startTLSErr with
          | some e =>
            (sendFail e, [Cmd.dial, Cmd.hello localHostName, Cmd.startTLS])
          | none =>
            sendAuth m env buf [Cmd.dial, Cmd.hello localHostName, Cmd.startTLS]
        else
          sendAuth m env buf [Cmd.dial, Cmd.hello localHostName]

/-- Go %q rendering of a string for the characters this program stores:
backslash, double quote, newline, carriage return and tab are escaped;
other characters are kept (further escapes Go applies to non-printable
runes are outside the character range exercised here). -/
def goQuoteChar (c : Char) : String :=
  if c = '\\' then "\\\\"
  else if c = '"' then "\\\""
  else if c = '\n' then "\\n"
  else if c = '\r' then "\\r"
  else if c = '\t' then "\\t"
  else String.mk [c]

/-- Go %q of a whole string: double quotes around the escaped characters. -/
def goQuote (s : String) : String :=
  "\"" ++ String.join (s.data.map goQuoteChar) ++ "\""

/-- Go %v of a string slice: the elements space-separated in brackets. -/
def goSliceV (xs : List String) : String :=
  "[" ++ String.intercalate " " xs ++ "]"

/-- Go %v of a bool. -/
def goBoolV (b : Bool) : String := if b then "true" else "false"

/-- The String method (named string here because the Go method name
collides with the Lean type String): a redacted rendering of the message
state. Credentials appear only as the bool m.auth != nil; Go's len on a
string counts bytes, hence utf8ByteSize. Braces of the Go format string
are written with \x7b and \x7d escapes. -/
def MailYak.string {α : Type} (m : MailYak α) : String :=
  let att := m.attachments.map (fun a => "\x7bfilename: " ++ a.filename ++ "\x7d")
  let custom :=
    if m.headers.length > 0 then
      String.intercalate ", "
        (m.headers.map (fun kv => kv.1 ++ ": " ++ goQuote kv.2)) ++ ", "
    else ""
  "&MailYak\x7bdate: " ++ goQuote m.date ++
    ", from: " ++ goQuote m.fromAddr ++
    ", fromName: " ++ goQuote m.fromName ++
    ", html: " ++ toString m.html.content.utf8ByteSize ++ " bytes" ++
    ", plain: " ++ toString m.plain.content.utf8ByteSize ++ " bytes" ++
    ", toAddrs: " ++ goSliceV m.toAddrs ++
    ", bccAddrs: " ++ goSliceV m.bccAddrs ++
    ", subject: " ++ goQuote m.subject ++
    ", " ++ custom ++ "host: " ++ goQuote m.host ++
    ", attachments (" ++ toString att.length ++ "): " ++ goSliceV att ++
    ", auth set: " ++ goBoolV m.auth.isSome ++ "\x7d"

/-- Projection from a trace entry to the envelope recipient it declares,
if any: only rcpt commands declare recipients. -/
def rcptArg : Cmd → Option String
  | Cmd.rcpt a => some a
  | _ => none

/-- Commands that can be issued after the greeting stage. -/
def postHello (c : Cmd) : Prop :=
  c = Cmd.auth ∨ (∃ a, c = Cmd.mail a) ∨ (∃ a, c = Cmd.rcpt a) ∨
    c = Cmd.data ∨ (∃ b, c = Cmd.write b) ∨ c = Cmd.closeData ∨
    c = Cmd.readResponse

/-- Wire commands issued before the envelope stage on a run whose dial,
greeting and (when attempted) TLS upgrade all succeed. -/
def preEnvelope {α : Type} (m : MailYak α) (env : SmtpEnv)
    (localHostName : String) : List Cmd :=
  [Cmd.dial, Cmd.hello localHostName] ++
    (if env.hasSTARTTLS then [Cmd.startTLS] else []) ++
    (if env.hasAUTH && m.auth.isSome then [Cmd.auth] else [])

/-- Fixture: a blank MailYak with a fixed RFC 1123Z timestamp. -/
def yak0 : MailYak Unit := NewBlank "Mon, 01 Jan 2024 00:00:00 +0000"

/-- Predicate: m2 agrees with m on every MailYak field except toAddrs. -/
def unchangedOutsideToAddrs {α : Type} (m m2 : MailYak α) : Prop :=
  m2.html = m.html ∧ m2.plain = m.plain ∧ m2.ccAddrs = m.ccAddrs ∧
  m2.bccAddrs = m.bccAddrs ∧ m2.subject = m.subject ∧
  m2.fromAddr = m.fromAddr ∧ m2.fromName = m.fromName ∧
  m2.replyTo = m.replyTo ∧ m2.headers = m.headers ∧
  m2.attachments = m.attachments ∧ m2.auth = m.auth ∧
  m2.trimRegex = m.trimRegex ∧ m2.host = m.host ∧
  m2.writeBccHeader = m.writeBccHeader ∧ m2.date = m.date

/-- Predicate: m2 agrees with m on every MailYak field except bccAddrs. -/
def unchangedOutsideBccAddrs {α : Type} (m m2 : MailYak α) : Prop :=
  m2.html = m.html ∧ m2.plain = m.plain ∧ m2.toAddrs = m.toAddrs ∧
  m2.ccAddrs = m.ccAddrs ∧ m2.subject = m.subject ∧
  m2.fromAddr = m.fromAddr ∧ m2.fromName = m.fromName ∧
  m2.replyTo = m.replyTo ∧ m2.headers = m.headers ∧
  m2.attachments = m.attachments ∧ m2.auth = m.auth ∧
  m2.trimRegex = m.trimRegex ∧ m2.host = m.host ∧
  m2.writeBccHeader = m.writeBccHeader ∧ m2.date = m.date

/-- Predicate: m2 agrees with m on every MailYak field except fromAddr. -/
def unchangedOutsideFromAddr {α : Type} (m m2 : MailYak α) : Prop :=
  m2.html = m.html ∧ m2.plain = m.plain ∧ m2.toAddrs = m.toAddrs ∧
  m2.ccAddrs = m.ccAddrs ∧ m2.bccAddrs = m.bccAddrs ∧
  m2.subject = m.subject ∧ m2.fromName = m.fromName ∧
  m2.replyTo = m.replyTo ∧ m2.headers = m.headers ∧
  m2.attachments = m.attachments ∧ m2.auth = m.auth ∧
  m2.trimRegex = m.trimRegex ∧ m2.host = m.host ∧
  m2.writeBccHeader = m.writeBccHeader ∧ m2.date = m.date

/-- Predicate: m2 agrees with m on every MailYak field except fromName. -/
def unchangedOutsideFromName {α : Type} (m m2 : MailYak α) : Prop :=
  m2.html = m.html ∧ m2.plain = m.plain ∧ m2.toAddrs = m.toAddrs ∧
  m2.ccAddrs = m.ccAddrs ∧ m2.bccAddrs = m.bccAddrs ∧
  m2.subject = m.subject ∧ m2.fromAddr = m.fromAddr ∧
  m2.replyTo = m.replyTo ∧ m2.headers = m.headers ∧
  m2.attachments = m.attachments ∧ m2.auth = m.auth ∧
  m2.trimRegex = m.trimRegex ∧ m2.host = m.host ∧
  m2.writeBccHeader = m.writeBccHeader ∧ m2.date = m.date

/-- Predicate: m2 agrees with m on every MailYak field except replyTo. -/
def unchangedOutsideReplyTo {α : Type} (m m2 : MailYak α) : Prop :=
  m2.html = m.html ∧ m2.plain = m.plain ∧ m2.toAddrs = m.toAddrs ∧
  m2.ccAddrs = m.ccAddrs ∧ m2.bccAddrs = m.bccAddrs ∧
  m2.subject = m.subject ∧ m2.fromAddr = m.fromAddr ∧
  m2.fromName = m.fromName ∧ m2.headers = m.headers ∧
  m2.attachments = m.attachments ∧ m2.auth = m.auth ∧
  m2.trimRegex = m.trimRegex ∧ m2.host = m.host ∧
  m2.writeBccHeader = m.writeBccHeader ∧ m2.date = m.date

/-- Predicate: m2 agrees with m on every MailYak field except subject. -/
def unchangedOutsideSubject {α : Type} (m m2 : MailYak α) : Prop :=
  m2.html = m.html ∧ m2.plain = m.plain ∧ m2.toAddrs = m.toAddrs ∧
  m2.ccAddrs = m.ccAddrs ∧ m2.bccAddrs = m.bccAddrs ∧
  m2.fromAddr = m.fromAddr ∧ m2.fromName = m.fromName ∧
  m2.replyTo = m.replyTo ∧ m2.headers = m.headers ∧
  m2.attachments = m.attachments ∧ m2.auth = m.auth ∧
  m2.trimRegex = m.trimRegex ∧ m2.host = m.host ∧
  m2.writeBccHeader = m.writeBccHeader ∧ m2.date = m.date

/-- Predicate: m2 agrees with m on every MailYak field except host. -/
def unchangedOutsideHost {α : Type} (m m2 : MailYak α) : Prop :=
  m2.html = m.html ∧ m2.plain = m.plain ∧ m2.toAddrs = m.toAddrs ∧
  m2.ccAddrs = m.ccAddrs ∧ m2.bccAddrs = m.bccAddrs ∧
  m2.subject = m.subject ∧ m2.fromAddr = m.fromAddr ∧
  m2.fromName = m.fromName ∧ m2.replyTo = m.replyTo ∧
  m2.headers = m.headers ∧ m2.attachments = m.attachments ∧
  m2.auth = m.auth ∧ m2.trimRegex = m.trimRegex ∧
  m2.writeBccHeader = m.writeBccHeader ∧ m2.date = m.date

/-- Predicate: m2 agrees with m on every MailYak field except auth. -/
def unchangedOutsideAuth {α : Type} (m m2 : MailYak α) : Prop :=
  m2.html = m.html ∧ m2.plain = m.plain ∧ m2.toAddrs = m.toAddrs ∧
  m2.ccAddrs = m.ccAddrs ∧ m2.bccAddrs = m.bccAddrs ∧
  m2.subject = m.subject ∧ m2.fromAddr = m.fromAddr ∧
  m2.fromName = m.fromName ∧ m2.replyTo = m.replyTo ∧
  m2.headers = m.headers ∧ m2.attachments = m.attachments ∧
  m2.trimRegex = m.trimRegex ∧ m2.host = m.host ∧
  m2.writeBccHeader = m.writeBccHeader ∧ m2.date = m.date

/-- Fixture: server that advertises AUTH, rejects the credentials, and
accepts everything else. -/
def envAuthFail : SmtpEnv :=
  { buildResult := Except.ok [104, 105], dialErr := none, helloErr := none
    hasSTARTTLS := false, startTLSErr := none, hasAUTH := true
    authErr := some "535 authentication credentials invalid"
    mailErr := none, rcptErr := fun _ => none, dataErr := none
    writeErr := none, closeErr := none, readCode := 250
    readMsg := "2.0.0 OK", readErr := none }

/-- Fixture: a message with a configured (non-nil) authenticator. -/
def yakAuth : MailYak Nat :=
  { (NewBlank "Mon, 01 Jan 2024 00:00:00 +0000" : MailYak Nat) with
    fromAddr := "from@example.com", toAddrs := ["to@example.com"]
    auth := some 1 }

/-- Fixture: a fully cooperative server with no STARTTLS and no AUTH. -/
def envAllOk : SmtpEnv :=
  { buildResult := Except.ok [77], dialErr := none, helloErr := none
    hasSTARTTLS := false, startTLSErr := none, hasAUTH := false
    authErr := none, mailErr := none, rcptErr := fun _ => none
    dataErr := none, writeErr := none, closeErr := none, readCode := 250
    readMsg := "accepted", readErr := none }

/-- Fixture: as envAllOk but rejecting the second recipient address. -/
def envRcptReject : SmtpEnv :=
  { envAllOk with
    rcptErr := fun a =>
      if a = "second@example.com" then some "550 mailbox unavailable"
      else none }

/-- Fixture: as envAllOk but the MIME build fails. -/
def envBuildFail : SmtpEnv :=
  { envAllOk with buildResult := Except.error "attachment read failed" }

/-- Fixture: a message with two recipient addresses and no authenticator. -/
def yakTwo : MailYak Unit :=
  { (NewBlank "Mon, 01 Jan 2024 00:00:00 +0000" : MailYak Unit) with
    fromAddr := "from@example.com"
    toAddrs := ["first@example.com", "second@example.com"] }

/-- Fixture: server advertising AUTH that rejects the credentials and
accepts everything else (used against the error-propagation claim). -/
def envAuthReject : SmtpEnv :=
  { buildResult := Except.ok [109], dialErr := none, helloErr := none
    hasSTARTTLS := false, startTLSErr := none, hasAUTH := true
    authErr := some "535 5.7.8 bad credentials", mailErr := none
    rcptErr := fun _ => none, dataErr := none, writeErr := none
    closeErr := none, readCode := 250, readMsg := "OK", readErr := none }

/-- Fixture: a second message with a configured authenticator. -/
def yakAuth2 : MailYak Nat :=
  { (NewBlank "Tue, 02 Jan 2024 00:00:00 +0000" : MailYak Nat) with
    fromAddr := "sender@example.org", toAddrs := ["rcpt@example.org"]
    auth := some 2 }

theorem sanitize_example : sanitize "a\r\nb\nc" = "abc" := by decide

theorem sanitize_bare_cr : sanitize "a\rb" = "a\rb" := by decide

/-- No line feed survives the trim-regex replacement. -/
theorem stripCRLF_no_lf (l : List Char) : '\n' ∉ stripCRLF l := by
  induction l using stripCRLF.induct with
  | case1 => simp [stripCRLF]
  | case2 => simp [stripCRLF]
  | case3 c h => simp [stripCRLF, h, Ne.symm h]
  | case4 c d rest h ih => simp [stripCRLF, h, ih]
  | case5 d rest h ih => simpa [stripCRLF, h] using ih
  | case6 c d rest h h2 ih => simp [stripCRLF, h, h2, ih, Ne.symm h2]

/-- String-level form of stripCRLF_no_lf. -/
theorem sanitize_no_lf (s : String) : '\n' ∉ (sanitize s).data :=
  stripCRLF_no_lf s.data

/-- The To and Bcc loop is elementwise sanitization. -/
theorem sanitizeAll_eq_map (addrs : List String) :
    sanitizeAll addrs = addrs.map sanitize := by
  induction addrs with
  | nil => rfl
  | cons a rest ih => simp [sanitizeAll, ih]

theorem rcptLoop_ok (addrs : List String) (f : String → Option String)
    (acc : List Cmd) (h : ∀ a ∈ addrs, f a = none) :
    rcptLoop addrs f acc = (none, acc ++ addrs.map Cmd.rcpt) := by
  induction addrs generalizing acc with
  | nil => simp [rcptLoop]
  | cons a rest ih =>
    have ha : f a = none := h a (by simp)
    have hrest : ∀ x ∈ rest, f x = none := fun x hx => h x (by simp [hx])
    simp [rcptLoop, ha, ih (acc ++ [Cmd.rcpt a]) hrest]

theorem rcptLoop_fail (pre post : List String) (bad : String) (e : String)
    (f : String → Option String) (acc : List Cmd)
    (hpre : ∀ a ∈ pre, f a = none) (hbad : f bad = some e) :
    rcptLoop (pre ++ bad :: post) f acc =
      (some e, acc ++ pre.map Cmd.rcpt ++ [Cmd.rcpt bad]) := by
  induction pre generalizing acc with
  | nil => simp [rcptLoop, hbad]
  | cons a pre' ih =>
    have ha : f a = none := hpre a (by simp)
    have hpre' : ∀ x ∈ pre', f x = none := fun x hx => hpre x (by simp [hx])
    simp only [List.cons_append, rcptLoop, ha, List.append_eq]
    rw [ih (acc ++ [Cmd.rcpt a]) hpre']
    simp

theorem rcptLoop_filter (addrs : List String) (f : String → Option String)
    (acc : List Cmd) :
    ∃ k, ((rcptLoop addrs f acc).2).filterMap rcptArg =
      acc.filterMap rcptArg ++ addrs.take k := by
  induction addrs generalizing acc with
  | nil => exact ⟨0, by simp [rcptLoop]⟩
  | cons a rest ih =>
    match hf : f a with
    | some e =>
      refine ⟨1, ?_⟩
      simp [rcptLoop, hf, rcptArg]
    | none =>
      obtain ⟨k, hk⟩ := ih (acc ++ [Cmd.rcpt a])
      refine ⟨k + 1, ?_⟩
      simp [rcptLoop, hf, hk, rcptArg]

theorem rcptLoop_mem (addrs : List String) (f : String → Option String)
    (acc : List Cmd) (c : Cmd) (hc : c ∈ (rcptLoop addrs f acc).2) :
    c ∈ acc ∨ ∃ a ∈ addrs, c = Cmd.rcpt a := by
  induction addrs generalizing acc with
  | nil => exact Or.inl (by simpa [rcptLoop] using hc)
  | cons a rest ih =>
    rcases hf : f a with _ | e
    · rw [rcptLoop, hf] at hc
      rcases ih (acc ++ [Cmd.rcpt a]) hc with hin | ⟨x, hx, hcx⟩
      · rcases List.mem_append.mp hin with hin2 | hin2
        · exact Or.inl hin2
        · exact Or.inr ⟨a, by simp, by simpa using hin2⟩
      · exact Or.inr ⟨x, by simp [hx], hcx⟩
    · rw [rcptLoop, hf] at hc
      have h2 : c ∈ acc ∨ c = Cmd.rcpt a := by simpa using hc
      rcases h2 with hin2 | hin2
      · exact Or.inl hin2
      · exact Or.inr ⟨a, by simp, hin2⟩

theorem sendFinish_filter (env : SmtpEnv) (buf : List Nat) (acc : List Cmd) :
    ((sendFinish env buf acc).2).filterMap rcptArg = acc.filterMap rcptArg := by
  unfold sendFinish
  rcases env.dataErr with _ | e <;>
    rcases env.writeErr with _ | e2 <;>
      rcases env.closeErr with _ | e3 <;> simp [rcptArg]

theorem sendFinish_mem (env : SmtpEnv) (buf : List Nat) (acc : List Cmd)
    (c : Cmd) (hc : c ∈ (sendFinish env buf acc).2) : c ∈ acc ∨ postHello c := by
  unfold sendFinish at hc
  rcases hd : env.dataErr with _ | e <;> rw [hd] at hc
  · rcases hw : env.writeErr with _ | e2 <;> rw [hw] at hc
    · rcases hcl : env.closeErr with _ | e3 <;> rw [hcl] at hc
      · rcases List.mem_append.mp hc with h2 | h2
        · exact Or.inl h2
        · refine Or.inr ?_
          simp only [List.mem_cons, List.not_mem_nil, or_false] at h2
          rcases h2 with rfl | rfl | rfl | rfl <;> simp [postHello]
      · rcases List.mem_append.mp hc with h2 | h2
        · exact Or.inl h2
        · refine Or.inr ?_
          simp only [List.mem_cons, List.not_mem_nil, or_false] at h2
          rcases h2 with rfl | rfl | rfl <;> simp [postHello]
    · rcases List.mem_append.mp hc with h2 | h2
      · exact Or.inl h2
      · refine Or.inr ?_
        simp only [List.mem_cons, List.not_mem_nil, or_false] at h2
        rcases h2 with rfl | rfl <;> simp [postHello]
  · rcases List.mem_append.mp hc with h2 | h2
    · exact Or.inl h2
    · refine Or.inr ?_
      simp only [List.mem_cons, List.not_mem_nil, or_false] at h2
      rcases h2 with rfl
      simp [postHello]

theorem sendEnvelope_filter {α : Type} (m : MailYak α) (env : SmtpEnv)
    (buf : List Nat) (acc : List Cmd) :
    ∃ k, ((sendEnvelope m env buf acc).2).filterMap rcptArg =
      acc.filterMap rcptArg ++ m.toAddrs.take k := by
  unfold sendEnvelope
  rcases env.mailErr with _ | e
  · obtain ⟨k, hk⟩ := rcptLoop_filter m.toAddrs env.rcptErr
      (acc ++ [Cmd.mail m.fromAddr])
    match hloop : rcptLoop m.toAddrs env.rcptErr (acc ++ [Cmd.mail m.fromAddr]) with
    | (some e, tr) =>
      refine ⟨k, ?_⟩
      rw [hloop] at hk
      simpa [rcptArg] using hk
    | (none, tr) =>
      refine ⟨k, ?_⟩
      rw [hloop] at hk
      have := sendFinish_filter env buf tr
      simp only []
      rw [this]
      simpa [rcptArg] using hk
  · exact ⟨0, by simp [rcptArg]⟩

theorem sendEnvelope_mem {α : Type} (m : MailYak α) (env : SmtpEnv)
    (buf : List Nat) (acc : List Cmd) (c : Cmd)
    (hc : c ∈ (sendEnvelope m env buf acc).2) : c ∈ acc ∨ postHello c := by
  unfold sendEnvelope at hc
  rcases hm : env.mailErr with _ | e <;> rw [hm] at hc
  · have key : c ∈ (rcptLoop m.toAddrs env.rcptErr (acc ++ [Cmd.mail m.fromAddr])).2 ∨
        postHello c := by
      rcases hloop : rcptLoop m.toAddrs env.rcptErr (acc ++ [Cmd.mail m.fromAddr])
        with ⟨o, tr⟩
      rw [hloop] at hc
      cases o with
      | some e => exact Or.inl hc
      | none =>
        rcases sendFinish_mem env buf tr c hc with hin | hp
        · exact Or.inl hin
        · exact Or.inr hp
    rcases key with hin | hp
    · rcases rcptLoop_mem m.toAddrs env.rcptErr (acc ++ [Cmd.mail m.fromAddr]) c hin
        with hin2 | ⟨x, hx, hcx⟩
      · rcases List.mem_append.mp hin2 with h3 | h3
        · exact Or.inl h3
        · exact Or.inr (Or.inr (Or.inl ⟨m.fromAddr, by simpa using h3⟩))
      · exact Or.inr (Or.inr (Or.inr (Or.inl ⟨x, hcx⟩)))
    · exact Or.inr hp
  · rcases List.mem_append.mp hc with h3 | h3
    · exact Or.inl h3
    · exact Or.inr (Or.inr (Or.inl ⟨m.fromAddr, by simpa using h3⟩))

theorem sendAuth_filter {α : Type} (m : MailYak α) (env : SmtpEnv)
    (buf : List Nat) (acc : List Cmd) :
    ∃ k, ((sendAuth m env buf acc).2).filterMap rcptArg =
      acc.filterMap rcptArg ++ m.toAddrs.take k := by
  unfold sendAuth
  by_cases h : (env.hasAUTH && m.auth.isSome) = true
  · rw [if_pos h]
    obtain ⟨k, hk⟩ := sendEnvelope_filter m env buf (acc ++ [Cmd.auth])
    exact ⟨k, by simpa [rcptArg] using hk⟩
  · rw [if_neg h]
    exact sendEnvelope_filter m env buf acc

theorem send_build_err {α : Type} (m : MailYak α) (lh : String) (env : SmtpEnv)
    (e : String) (hb : env.buildResult = Except.error e) :
    m.Send lh env = (sendFail e, []) := by
  unfold MailYak.Send
  rw [hb]

theorem send_dial_err {α : Type} (m : MailYak α) (lh : String) (env : SmtpEnv)
    (buf : List Nat) (e : String) (hb : env.buildResult = Except.ok buf)
    (hd : env.dialErr = some e) :
    m.Send lh env = (sendFail e, [Cmd.dial]) := by
  unfold MailYak.Send
  rw [hb, hd]

theorem send_hello_err {α : Type} (m : MailYak α) (lh : String) (env : SmtpEnv)
    (buf : List Nat) (e : String) (hb : env.buildResult = Except.ok buf)
    (hd : env.dialErr = none) (hh : env.helloErr = some e) :
    m.Send lh env = (sendFail e, [Cmd.dial, Cmd.hello lh]) := by
  unfold MailYak.Send
  rw [hb, hd, hh]

theorem send_tls_err {α : Type} (m : MailYak α) (lh : String) (env : SmtpEnv)
    (buf : List Nat) (e : String) (hb : env.buildResult = Except.ok buf)
    (hd : env.dialErr = none) (hh : env.helloErr = none)
    (hts : env.hasSTARTTLS = true) (he : env.startTLSErr = some e) :
    m.Send lh env = (sendFail e, [Cmd.dial, Cmd.hello lh, Cmd.startTLS]) := by
  unfold MailYak.Send
  simp only [hb, hd, hh, hts, if_true, he]

/-- When build, dial, greeting and (when attempted) the TLS upgrade all
succeed, Send reduces to the auth stage run on the pre-auth trace. -/
theorem send_reaches_auth {α : Type} (m : MailYak α) (lh : String)
    (env : SmtpEnv) (buf : List Nat) (hb : env.buildResult = Except.ok buf)
    (hd : env.dialErr = none) (hh : env.helloErr = none)
    (ht : env.hasSTARTTLS = true → env.startTLSErr = none) :
    m.Send lh env = sendAuth m env buf
      ([Cmd.dial, Cmd.hello lh] ++
        (if env.hasSTARTTLS then [Cmd.startTLS] else [])) := by
  unfold MailYak.Send
  by_cases hts : env.hasSTARTTLS = true
  · simp only [hb, hd, hh, hts, if_true, ht hts]
    rfl
  · have hts2 : env.hasSTARTTLS = false := by simpa using hts
    simp only [hb, hd, hh, hts2, if_false, Bool.false_eq_true, List.append_nil]

/-- When additionally the auth stage is passed (with or without an auth
command), Send reduces to the envelope stage on the preEnvelope trace. -/
theorem send_reaches_envelope {α : Type} (m : MailYak α) (lh : String)
    (env : SmtpEnv) (buf : List Nat) (hb : env.buildResult = Except.ok buf)
    (hd : env.dialErr = none) (hh : env.helloErr = none)
    (ht : env.hasSTARTTLS = true → env.startTLSErr = none) :
    m.Send lh env = sendEnvelope m env buf (preEnvelope m env lh) := by
  rw [send_reaches_auth m lh env buf hb hd hh ht]
  unfold sendAuth preEnvelope
  by_cases ha : (env.hasAUTH && m.auth.isSome) = true
  · simp only [ha, if_true, List.append_assoc]
  · simp only [ha, if_false, Bool.false_eq_true, List.append_nil]

theorem sendEnvelope_mail_err {α : Type} (m : MailYak α) (env : SmtpEnv)
    (buf : List Nat) (acc : List Cmd) (e : String)
    (hm : env.mailErr = some e) :
    sendEnvelope m env buf acc = (sendFail e, acc ++ [Cmd.mail m.fromAddr]) := by
  unfold sendEnvelope
  rw [hm]

theorem sendEnvelope_rcpt_fail {α : Type} (m : MailYak α) (env : SmtpEnv)
    (buf : List Nat) (acc : List Cmd) (pre post : List String)
    (bad e : String) (hm : env.mailErr = none)
    (hsplit : m.toAddrs = pre ++ bad :: post)
    (hpre : ∀ a ∈ pre, env.rcptErr a = none)
    (hbad : env.rcptErr bad = some e) :
    sendEnvelope m env buf acc =
      (sendFail e, acc ++ [Cmd.mail m.fromAddr] ++ pre.map Cmd.rcpt ++
        [Cmd.rcpt bad]) := by
  unfold sendEnvelope
  rw [hm, hsplit,
    rcptLoop_fail pre post bad e env.rcptErr (acc ++ [Cmd.mail m.fromAddr])
      hpre hbad]

theorem sendEnvelope_ok {α : Type} (m : MailYak α) (env : SmtpEnv)
    (buf : List Nat) (acc : List Cmd) (hm : env.mailErr = none)
    (hr : ∀ a ∈ m.toAddrs, env.rcptErr a = none) :
    sendEnvelope m env buf acc =
      sendFinish env buf
        (acc ++ [Cmd.mail m.fromAddr] ++ m.toAddrs.map Cmd.rcpt) := by
  unfold sendEnvelope
  rw [hm, rcptLoop_ok m.toAddrs env.rcptErr (acc ++ [Cmd.mail m.fromAddr]) hr]

theorem sendFinish_data_err (env : SmtpEnv) (buf : List Nat) (acc : List Cmd)
    (e : String) (hd : env.dataErr = some e) :
    sendFinish env buf acc = (sendFail e, acc ++ [Cmd.data]) := by
  unfold sendFinish
  rw [hd]

theorem sendFinish_ok (env : SmtpEnv) (buf : List Nat) (acc : List Cmd)
    (hd : env.dataErr = none) (hw : env.writeErr = none)
    (hcl : env.closeErr = none) :
    sendFinish env buf acc =
      ((env.readCode, env.readMsg, env.readErr),
        acc ++ [Cmd.data, Cmd.write buf, Cmd.closeData, Cmd.readResponse]) := by
  unfold sendFinish
  rw [hd, hw, hcl]

theorem sendAuth_mem {α : Type} (m : MailYak α) (env : SmtpEnv)
    (buf : List Nat) (acc : List Cmd) (c : Cmd)
    (hc : c ∈ (sendAuth m env buf acc).2) : c ∈ acc ∨ postHello c := by
  unfold sendAuth at hc
  by_cases h : (env.hasAUTH && m.auth.isSome) = true
  · rw [if_pos h] at hc
    rcases sendEnvelope_mem m env buf (acc ++ [Cmd.auth]) c hc with hin | hp
    · rcases List.mem_append.mp hin with hin | hin
      · exact Or.inl hin
      · exact Or.inr (Or.inl (by simpa using hin))
    · exact Or.inr hp
  · rw [if_neg h] at hc
    exact sendEnvelope_mem m env buf acc c hc

theorem sendFinish_write_err (env : SmtpEnv) (buf : List Nat) (acc : List Cmd)
    (e : String) (hd : env.dataErr = none) (hw : env.writeErr = some e) :
    sendFinish env buf acc = (sendFail e, acc ++ [Cmd.data, Cmd.write buf]) := by
  unfold sendFinish
  rw [hd, hw]

theorem sendFinish_close_err (env : SmtpEnv) (buf : List Nat) (acc : List Cmd)
    (e : String) (hd : env.dataErr = none) (hw : env.writeErr = none)
    (hcl : env.closeErr = some e) :
    sendFinish env buf acc =
      (sendFail e, acc ++ [Cmd.data, Cmd.write buf, Cmd.closeData]) := by
  unfold sendFinish
  rw [hd, hw, hcl]

/-- Every command in the pre-envelope trace is a dial, greeting, STARTTLS
or AUTH command. -/
theorem preEnvelope_mem {α : Type} (m : MailYak α) (env : SmtpEnv)
    (lh : String) (c : Cmd) (hc : c ∈ preEnvelope m env lh) :
    c = Cmd.dial ∨ c = Cmd.hello lh ∨ c = Cmd.startTLS ∨ c = Cmd.auth := by
  unfold preEnvelope at hc
  by_cases h1 : env.hasSTARTTLS = true <;>
    by_cases h2 : (env.hasAUTH && m.auth.isSome) = true <;>
      simp [h1, h2] at hc <;> tauto

/-- The pre-envelope trace declares no envelope recipient. -/
theorem preEnvelope_filter {α : Type} (m : MailYak α) (env : SmtpEnv)
    (lh : String) :
    (preEnvelope m env lh).filterMap rcptArg = [] := by
  unfold preEnvelope
  by_cases h1 : env.hasSTARTTLS = true <;>
    by_cases h2 : (env.hasAUTH && m.auth.isSome) = true <;>
      simp [h1, h2, rcptArg]

/-- C1 counterexample: the trim regex "\r?\n" does not match a bare
carriage return, so To stores a value still containing '\x0d' when the
input holds a '\x0d' not followed by '\n'. -/
theorem claim1_counterexample :
    '\r' ∈ (((yak0.To ["a\rb"]).GetToAddrs).headD "").data ∧
    '\r' ∈ ((yak0.Subject "x\ry").GetSubject).data := by
  exact ⟨by decide, by decide⟩

/-- C1 (amended): after To, Bcc or Subject the stored value contains no
line-feed character, and hence no CRLF sequence; a bare carriage return
not followed by a line feed is retained. -/
theorem claim1_amended_no_linefeed {α : Type} (m : MailYak α)
    (addrs : List String) (sub : String) :
    (∀ s, s ∈ (m.To addrs).GetToAddrs → '\n' ∉ s.data) ∧
    (∀ s, s ∈ (m.Bcc addrs).GetBCCAddrs → '\n' ∉ s.data) ∧
    '\n' ∉ ((m.Subject sub).GetSubject).data := by
  refine ⟨?_, ?_, sanitize_no_lf sub⟩
  · intro s hs
    have hs2 : s ∈ sanitizeAll addrs := hs
    rw [sanitizeAll_eq_map] at hs2
    obtain ⟨a, _, rfl⟩ := List.mem_map.mp hs2
    exact sanitize_no_lf a
  · intro s hs
    have hs2 : s ∈ sanitizeAll addrs := hs
    rw [sanitizeAll_eq_map] at hs2
    obtain ⟨a, _, rfl⟩ := List.mem_map.mp hs2
    exact sanitize_no_lf a

/-- Witness for C1 (amended) at a concrete injected CRLF input. -/
theorem claim1_amended_no_linefeed_witness :
    "ab" ∈ (yak0.To ["a\r\nb"]).GetToAddrs ∧ '\n' ∉ (String.data "ab") :=
  ⟨by decide,
    (claim1_amended_no_linefeed yak0 ["a\r\nb"] "s").1 "ab" (by decide)⟩

/-- C3 is violated by the source: From, FromName and ReplyTo assign the
raw argument without running the trim regex, so embedded CR and LF
characters reach the stored field. -/
theorem claim3_from_stores_line_breaks :
    (yak0.From "a@x.com\r\nBcc: evil@x.com").GetFromAddr
        = "a@x.com\r\nBcc: evil@x.com" ∧
    '\n' ∈ ((yak0.From "a@x.com\r\nBcc: evil@x.com").GetFromAddr).data ∧
    '\n' ∈ ((yak0.FromName "Bob\nEve").GetFromName).data ∧
    '\n' ∈ ((yak0.ReplyTo "r@x.com\r\n").GetReplyTo).data := by
  exact ⟨rfl, by decide, by decide, by decide⟩

/-- C8: the redacted String rendering is independent of the concrete
non-nil credential value: two messages identical except for the auth
payload render to the same string, so only the boolean fact that auth is
configured can be observed. -/
theorem claim8_string_redacts_credentials {α : Type} (m : MailYak α)
    (a b : α) :
    MailYak.string { m with auth := some a } =
      MailYak.string { m with auth := some b } := rfl

/-- C9: To and Bcc replace the entire stored list with exactly the
sanitized arguments in argument order, independent of the previous list;
zero arguments leave an empty list. -/
theorem claim9_to_bcc_replace_list {α : Type} (m : MailYak α)
    (addrs : List String) :
    (m.To addrs).GetToAddrs = addrs.map sanitize ∧
    (m.Bcc addrs).GetBCCAddrs = addrs.map sanitize ∧
    (m.To []).GetToAddrs = [] ∧
    (m.Bcc []).GetBCCAddrs = [] :=
  ⟨sanitizeAll_eq_map addrs, sanitizeAll_eq_map addrs, rfl, rfl⟩

/-- C10: each setter changes only its own field: every other field of the
record, including body parts, attachments, custom headers, date and the
write-Bcc flag, is unchanged. -/
theorem claim10_setters_frame {α : Type} (m : MailYak α)
    (addrs : List String) (s1 s2 s3 s4 s5 : String) (a : Option α) :
    unchangedOutsideToAddrs m (m.To addrs) ∧
    unchangedOutsideBccAddrs m (m.Bcc addrs) ∧
    unchangedOutsideFromAddr m (m.From s1) ∧
    unchangedOutsideFromName m (m.FromName s2) ∧
    unchangedOutsideReplyTo m (m.ReplyTo s3) ∧
    unchangedOutsideSubject m (m.Subject s4) ∧
    unchangedOutsideHost m (m.Host s5) ∧
    unchangedOutsideAuth m (m.Auth a) := by
  refine ⟨?_, ?_, ?_, ?_, ?_, ?_, ?_, ?_⟩ <;>
    · repeat' apply And.intro
      all_goals rfl

theorem rcptLoop_acc (addrs : List String) (f : String → Option String)
    (acc : List Cmd) : ∃ t, (rcptLoop addrs f acc).2 = acc ++ t := by
  induction addrs generalizing acc with
  | nil => exact ⟨[], by simp [rcptLoop]⟩
  | cons a rest ih =>
    rcases hf : f a with _ | e
    · obtain ⟨t, ht⟩ := ih (acc ++ [Cmd.rcpt a])
      exact ⟨[Cmd.rcpt a] ++ t, by rw [rcptLoop, hf, ht]; simp⟩
    · exact ⟨[Cmd.rcpt a], by rw [rcptLoop, hf]⟩

theorem sendFinish_acc (env : SmtpEnv) (buf : List Nat) (acc : List Cmd) :
    ∃ t, (sendFinish env buf acc).2 = acc ++ t := by
  unfold sendFinish
  rcases env.dataErr with _ | e <;> rcases env.writeErr with _ | e2 <;>
    rcases env.closeErr with _ | e3 <;> exact ⟨_, rfl⟩

theorem sendEnvelope_acc {α : Type} (m : MailYak α) (env : SmtpEnv)
    (buf : List Nat) (acc : List Cmd) :
    ∃ t, (sendEnvelope m env buf acc).2 = acc ++ t := by
  unfold sendEnvelope
  rcases env.mailErr with _ | e
  · obtain ⟨t, ht⟩ := rcptLoop_acc m.toAddrs env.rcptErr
      (acc ++ [Cmd.mail m.fromAddr])
    rcases hloop : rcptLoop m.toAddrs env.rcptErr (acc ++ [Cmd.mail m.fromAddr])
      with ⟨o, tr⟩
    rw [hloop] at ht
    cases o with
    | some e =>
      refine ⟨[Cmd.mail m.fromAddr] ++ t, ?_⟩
      show tr = _
      simp only [Prod.snd] at ht
      rw [ht]
      simp
    | none =>
      obtain ⟨t2, ht2⟩ := sendFinish_acc env buf tr
      refine ⟨[Cmd.mail m.fromAddr] ++ t ++ t2, ?_⟩
      show (sendFinish env buf tr).2 = _
      simp only [Prod.snd] at ht
      rw [ht2, ht]
      simp
  · exact ⟨[Cmd.mail m.fromAddr], rfl⟩

theorem sendAuth_acc {α : Type} (m : MailYak α) (env : SmtpEnv)
    (buf : List Nat) (acc : List Cmd) :
    ∃ t, (sendAuth m env buf acc).2 = acc ++ t := by
  unfold sendAuth
  by_cases h : (env.hasAUTH && m.auth.isSome) = true
  · rw [if_pos h]
    obtain ⟨t, ht⟩ := sendEnvelope_acc m env buf (acc ++ [Cmd.auth])
    exact ⟨[Cmd.auth] ++ t, by rw [ht]; simp⟩
  · rw [if_neg h]
    exact sendEnvelope_acc m env buf acc

/-- C2 is violated by the source: with AUTH advertised and a non-nil
authenticator whose authentication fails, Send discards the Auth error
(contradicting its own doc comment), issues MAIL FROM and the rest of the
sequence, and returns the server's success response instead of the
authentication error. -/
theorem claim2_auth_error_discarded :
    envAuthFail.authErr = some "535 authentication credentials invalid" ∧
    yakAuth.auth.isSome = true ∧
    yakAuth.Send "localhost" envAuthFail =
      ((250, "2.0.0 OK", none),
        [Cmd.dial, Cmd.hello "localhost", Cmd.auth,
         Cmd.mail "from@example.com", Cmd.rcpt "to@example.com", Cmd.data,
         Cmd.write [104, 105], Cmd.closeData, Cmd.readResponse]) ∧
    (yakAuth.Send "localhost" envAuthFail).1 ≠
      sendFail "535 authentication credentials invalid" := by
  refine ⟨rfl, rfl, rfl, by decide⟩

/-- C4: each To-list address is declared individually by an rcpt command
in list order, and the first rejection makes Send return that error with
no data command issued and no bytes of the message body written. -/
theorem claim4_rcpt_rejection_aborts_before_data {α : Type} (m : MailYak α)
    (lh : String) (env : SmtpEnv) (buf : List Nat) (pre post : List String)
    (bad e : String)
    (hb : env.buildResult = Except.ok buf)
    (hd : env.dialErr = none) (hh : env.helloErr = none)
    (ht : env.hasSTARTTLS = true → env.startTLSErr = none)
    (hm : env.mailErr = none)
    (hsplit : m.toAddrs = pre ++ bad :: post)
    (hpre : ∀ a ∈ pre, env.rcptErr a = none)
    (hbad : env.rcptErr bad = some e) :
    (m.Send lh env).1 = sendFail e ∧
    (m.Send lh env).2 =
      preEnvelope m env lh ++ [Cmd.mail m.fromAddr] ++ pre.map Cmd.rcpt ++
        [Cmd.rcpt bad] ∧
    Cmd.data ∉ (m.Send lh env).2 ∧
    (∀ b, Cmd.write b ∉ (m.Send lh env).2) := by
  have hred := send_reaches_envelope m lh env buf hb hd hh ht
  have henv := sendEnvelope_rcpt_fail m env buf (preEnvelope m env lh) pre post
    bad e hm hsplit hpre hbad
  rw [hred, henv]
  refine ⟨rfl, rfl, ?_, ?_⟩
  · intro hmem
    rcases List.mem_append.mp hmem with h1 | h1
    · rcases List.mem_append.mp h1 with h2 | h2
      · rcases List.mem_append.mp h2 with h3 | h3
        · rcases preEnvelope_mem m env lh _ h3 with h4 | h4 | h4 | h4 <;>
            simp at h4
        · simp at h3
      · simp at h2
    · simp at h1
  · intro b hmem
    rcases List.mem_append.mp hmem with h1 | h1
    · rcases List.mem_append.mp h1 with h2 | h2
      · rcases List.mem_append.mp h2 with h3 | h3
        · rcases preEnvelope_mem m env lh _ h3 with h4 | h4 | h4 | h4 <;>
            simp at h4
        · simp at h3
      · simp at h2
    · simp at h1

/-- C5: when STARTTLS is advertised, the upgrade happens right after the
greeting and before any further command, and a TLS failure is returned as
the result of Send; when it is not advertised, no startTLS command is
ever issued and, with a cooperative server, the MAIL/RCPT/DATA sequence
still completes in clear text, returning the server's final response. -/
theorem claim5_opportunistic_starttls {α : Type} (m : MailYak α)
    (lh : String) (env : SmtpEnv) (buf : List Nat)
    (hb : env.buildResult = Except.ok buf)
    (hd : env.dialErr = none) (hh : env.helloErr = none) :
    (∀ e, env.hasSTARTTLS = true → env.startTLSErr = some e →
      m.Send lh env = (sendFail e, [Cmd.dial, Cmd.hello lh, Cmd.startTLS])) ∧
    (env.hasSTARTTLS = true → env.startTLSErr = none →
      ∃ rest, (m.Send lh env).2 =
        [Cmd.dial, Cmd.hello lh, Cmd.startTLS] ++ rest) ∧
    (env.hasSTARTTLS = false →
      Cmd.startTLS ∉ (m.Send lh env).2 ∧
      (env.mailErr = none → (∀ a ∈ m.toAddrs, env.rcptErr a = none) →
        env.dataErr = none → env.writeErr = none → env.closeErr = none →
        (m.Send lh env).1 = (env.readCode, env.readMsg, env.readErr) ∧
        Cmd.mail m.fromAddr ∈ (m.Send lh env).2 ∧
        (∀ a ∈ m.toAddrs, Cmd.rcpt a ∈ (m.Send lh env).2) ∧
        Cmd.data ∈ (m.Send lh env).2)) := by
  refine ⟨?_, ?_, ?_⟩
  · intro e hts hse
    exact send_tls_err m lh env buf e hb hd hh hts hse
  · intro hts hse
    rw [send_reaches_auth m lh env buf hb hd hh (fun _ => hse)]
    obtain ⟨t, htr⟩ := sendAuth_acc m env buf
      ([Cmd.dial, Cmd.hello lh] ++ (if env.hasSTARTTLS then [Cmd.startTLS] else []))
    refine ⟨t, ?_⟩
    rw [htr, hts]
    simp
  · intro hts
    have ht : env.hasSTARTTLS = true → env.startTLSErr = none := by
      intro hx
      rw [hts] at hx
      cases hx
    constructor
    · rw [send_reaches_auth m lh env buf hb hd hh ht]
      intro hc
      rcases sendAuth_mem m env buf _ Cmd.startTLS hc with hin | hp
      · rw [hts] at hin
        simp at hin
      · simp [postHello] at hp
    · intro hm hr hdata hwrite hclose
      rw [send_reaches_envelope m lh env buf hb hd hh ht,
        sendEnvelope_ok m env buf (preEnvelope m env lh) hm hr,
        sendFinish_ok env buf _ hdata hwrite hclose]
      refine ⟨rfl, ?_, ?_, ?_⟩
      · exact List.mem_append_left _
          (List.mem_append_left _ (List.mem_append_right _ (by simp)))
      · intro a ha
        exact List.mem_append_left _
          (List.mem_append_right _ (List.mem_map_of_mem Cmd.rcpt ha))
      · exact List.mem_append_right _ (by simp)

theorem filterMap_rcptArg_map (l : List String) :
    (l.map Cmd.rcpt).filterMap rcptArg = l := by
  induction l with
  | nil => rfl
  | cons a rest ih => simp [rcptArg, ih]

theorem filterMap_rcptArg_comp (l : List String) :
    List.filterMap (rcptArg ∘ Cmd.rcpt) l = l := by
  induction l with
  | nil => rfl
  | cons a rest ih => simp [rcptArg, Function.comp, ih]

/-- C6: in every run of Send the envelope recipients declared on the wire
are an initial segment of the To list (so Cc and Bcc addresses are never
declared), and in a run where the server accepts every command up to and
including the RCPT stage they are exactly the To list. -/
theorem claim6_envelope_recipients_are_to_list {α : Type} (m : MailYak α)
    (lh : String) (env : SmtpEnv) :
    (∃ k, ((m.Send lh env).2).filterMap rcptArg = m.toAddrs.take k) ∧
    (∀ buf, env.buildResult = Except.ok buf → env.dialErr = none →
      env.helloErr = none → (env.hasSTARTTLS = true → env.startTLSErr = none) →
      env.mailErr = none → (∀ a ∈ m.toAddrs, env.rcptErr a = none) →
      ((m.Send lh env).2).filterMap rcptArg = m.toAddrs) := by
  constructor
  · rcases hb : env.buildResult with e | buf
    · rw [send_build_err m lh env e hb]
      exact ⟨0, by simp⟩
    · rcases hd : env.dialErr with _ | e
      · rcases hh : env.helloErr with _ | e
        · by_cases hts : env.hasSTARTTLS = true
          · rcases hse : env.startTLSErr with _ | e
            · rw [send_reaches_auth m lh env buf hb hd hh (fun _ => hse)]
              obtain ⟨k, hk⟩ := sendAuth_filter m env buf
                ([Cmd.dial, Cmd.hello lh] ++
                  (if env.hasSTARTTLS then [Cmd.startTLS] else []))
              refine ⟨k, ?_⟩
              rw [hk, hts]
              simp [rcptArg]
            · rw [send_tls_err m lh env buf e hb hd hh hts hse]
              exact ⟨0, by simp [rcptArg]⟩
          · have ht : env.hasSTARTTLS = true → env.startTLSErr = none := by
              intro hx
              exact absurd hx hts
            rw [send_reaches_auth m lh env buf hb hd hh ht]
            obtain ⟨k, hk⟩ := sendAuth_filter m env buf
              ([Cmd.dial, Cmd.hello lh] ++
                (if env.hasSTARTTLS then [Cmd.startTLS] else []))
            refine ⟨k, ?_⟩
            have hts2 : env.hasSTARTTLS = false := by simpa using hts
            rw [hk, hts2]
            simp [rcptArg]
        · rw [send_hello_err m lh env buf e hb hd hh]
          exact ⟨0, by simp [rcptArg]⟩
      · rw [send_dial_err m lh env buf e hb hd]
        exact ⟨0, by simp [rcptArg]⟩
  · intro buf hb hd hh ht hm hr
    rw [send_reaches_envelope m lh env buf hb hd hh ht,
      sendEnvelope_ok m env buf (preEnvelope m env lh) hm hr]
    rw [sendFinish_filter env buf _]
    simp [List.filterMap_append, preEnvelope_filter m env lh, rcptArg,
      filterMap_rcptArg_map, filterMap_rcptArg_comp]

/-- Witness for C4: the second of two To addresses is rejected; Send
returns that error and DATA is never issued. -/
theorem claim4_witness :
    (yakTwo.Send "client.example" envRcptReject).1 =
      sendFail "550 mailbox unavailable" ∧
    Cmd.data ∉ (yakTwo.Send "client.example" envRcptReject).2 := by
  have h := claim4_rcpt_rejection_aborts_before_data yakTwo "client.example"
    envRcptReject [77] ["first@example.com"] [] "second@example.com"
    "550 mailbox unavailable" rfl rfl rfl (fun _ => rfl) rfl rfl
    (by decide) (by decide)
  exact ⟨h.1, h.2.2.1⟩

/-- Witness for C5: against a server not advertising STARTTLS, no
startTLS command is issued and the clear-text MAIL/RCPT/DATA run
completes, returning the server's final response. -/
theorem claim5_witness :
    Cmd.startTLS ∉ (yakTwo.Send "client.example" envAllOk).2 ∧
    (yakTwo.Send "client.example" envAllOk).1 = (250, "accepted", none) ∧
    Cmd.data ∈ (yakTwo.Send "client.example" envAllOk).2 := by
  have h := claim5_opportunistic_starttls yakTwo "client.example" envAllOk
    [77] rfl rfl rfl
  have h3 := h.2.2 rfl
  have h4 := h3.2 rfl (by decide) rfl rfl rfl
  exact ⟨h3.1, h4.1, h4.2.2.2⟩

/-- Witness for C6: the declared envelope recipients of a successful run
are exactly the two To addresses, in order. -/
theorem claim6_witness :
    ((yakTwo.Send "client.example" envAllOk).2).filterMap rcptArg =
      ["first@example.com", "second@example.com"] := by
  have h := (claim6_envelope_recipients_are_to_list yakTwo "client.example"
    envAllOk).2 [77] rfl rfl rfl (fun _ => rfl) rfl (by decide)
  exact h

/-- C7 counterexample: the authentication step fails in this run, yet
Send returns the server's success response, not that error — so not
every later failing step returns its error immediately upward. -/
theorem claim7_counterexample :
    envAuthReject.authErr = some "535 5.7.8 bad credentials" ∧
    (yakAuth2.Send "client.local" envAuthReject).1 = (250, "OK", none) ∧
    (yakAuth2.Send "client.local" envAuthReject).1 ≠
      sendFail "535 5.7.8 bad credentials" := by
  exact ⟨rfl, rfl, by decide⟩

/-- C7 (amended): a MIME build failure is returned before any network
command is issued, and every later checked step — dial, greeting,
STARTTLS, MAIL FROM, RCPT TO (settled in the C4 theorem), DATA, the body
write and the data-stream close — returns its error immediately with the
wire trace it had issued so far and nothing reissued; the authentication
step is the exception: its error is discarded. On an error-free run the
server's final response is returned after the full command sequence. -/
theorem claim7_amended_error_propagation {α : Type} (m : MailYak α)
    (lh : String) (env : SmtpEnv) (buf : List Nat) (e : String) :
    (env.buildResult = Except.error e → m.Send lh env = (sendFail e, [])) ∧
    (env.buildResult = Except.ok buf → env.dialErr = some e →
      m.Send lh env = (sendFail e, [Cmd.dial])) ∧
    (env.buildResult = Except.ok buf → env.dialErr = none →
      env.helloErr = some e →
      m.Send lh env = (sendFail e, [Cmd.dial, Cmd.hello lh])) ∧
    (env.buildResult = Except.ok buf → env.dialErr = none →
      env.helloErr = none → env.hasSTARTTLS = true →
      env.startTLSErr = some e →
      m.Send lh env = (sendFail e, [Cmd.dial, Cmd.hello lh, Cmd.startTLS])) ∧
    (env.buildResult = Except.ok buf → env.dialErr = none →
      env.helloErr = none → (env.hasSTARTTLS = true → env.startTLSErr = none) →
      env.mailErr = some e →
      m.Send lh env =
        (sendFail e, preEnvelope m env lh ++ [Cmd.mail m.fromAddr])) ∧
    (env.buildResult = Except.ok buf → env.dialErr = none →
      env.helloErr = none → (env.hasSTARTTLS = true → env.startTLSErr = none) →
      env.mailErr = none → (∀ a ∈ m.toAddrs, env.rcptErr a = none) →
      env.dataErr = some e →
      m.Send lh env =
        (sendFail e, preEnvelope m env lh ++ [Cmd.mail m.fromAddr] ++
          m.toAddrs.map Cmd.rcpt ++ [Cmd.data])) ∧
    (env.buildResult = Except.ok buf → env.dialErr = none →
      env.helloErr = none → (env.hasSTARTTLS = true → env.startTLSErr = none) →
      env.mailErr = none → (∀ a ∈ m.toAddrs, env.rcptErr a = none) →
      env.dataErr = none → env.writeErr = some e →
      m.Send lh env =
        (sendFail e, preEnvelope m env lh ++ [Cmd.mail m.fromAddr] ++
          m.toAddrs.map Cmd.rcpt ++ [Cmd.data, Cmd.write buf])) ∧
    (env.buildResult = Except.ok buf → env.dialErr = none →
      env.helloErr = none → (env.hasSTARTTLS = true → env.startTLSErr = none) →
      env.mailErr = none → (∀ a ∈ m.toAddrs, env.rcptErr a = none) →
      env.dataErr = none → env.writeErr = none → env.closeErr = some e →
      m.Send lh env =
        (sendFail e, preEnvelope m env lh ++ [Cmd.mail m.fromAddr] ++
          m.toAddrs.map Cmd.rcpt ++
          [Cmd.data, Cmd.write buf, Cmd.closeData])) ∧
    (env.buildResult = Except.ok buf → env.dialErr = none →
      env.helloErr = none → (env.hasSTARTTLS = true → env.startTLSErr = none) →
      env.mailErr = none → (∀ a ∈ m.toAddrs, env.rcptErr a = none) →
      env.dataErr = none → env.writeErr = none → env.closeErr = none →
      m.Send lh env =
        ((env.readCode, env.readMsg, env.readErr),
          preEnvelope m env lh ++ [Cmd.mail m.fromAddr] ++
            m.toAddrs.map Cmd.rcpt ++
            [Cmd.data, Cmd.write buf, Cmd.closeData, Cmd.readResponse])) := by
  refine ⟨?_, ?_, ?_, ?_, ?_, ?_, ?_, ?_, ?_⟩
  · intro h1
    exact send_build_err m lh env e h1
  · intro h1 h2
    exact send_dial_err m lh env buf e h1 h2
  · intro h1 h2 h3
    exact send_hello_err m lh env buf e h1 h2 h3
  · intro h1 h2 h3 h4 h5
    exact send_tls_err m lh env buf e h1 h2 h3 h4 h5
  · intro h1 h2 h3 h4 h5
    rw [send_reaches_envelope m lh env buf h1 h2 h3 h4,
      sendEnvelope_mail_err m env buf (preEnvelope m env lh) e h5]
  · intro h1 h2 h3 h4 h5 h6 h7
    rw [send_reaches_envelope m lh env buf h1 h2 h3 h4,
      sendEnvelope_ok m env buf (preEnvelope m env lh) h5 h6,
      sendFinish_data_err env buf _ e h7]
  · intro h1 h2 h3 h4 h5 h6 h7 h8
    rw [send_reaches_envelope m lh env buf h1 h2 h3 h4,
      sendEnvelope_ok m env buf (preEnvelope m env lh) h5 h6,
      sendFinish_write_err env buf _ e h7 h8]
  · intro h1 h2 h3 h4 h5 h6 h7 h8 h9
    rw [send_reaches_envelope m lh env buf h1 h2 h3 h4,
      sendEnvelope_ok m env buf (preEnvelope m env lh) h5 h6,
      sendFinish_close_err env buf _ e h7 h8 h9]
  · intro h1 h2 h3 h4 h5 h6 h7 h8 h9
    rw [send_reaches_envelope m lh env buf h1 h2 h3 h4,
      sendEnvelope_ok m env buf (preEnvelope m env lh) h5 h6,
      sendFinish_ok env buf _ h7 h8 h9]

/-- Witness for C7 (amended): a failing build is returned with an empty
wire trace; an error-free run returns the server's final response. -/
theorem claim7_amended_witness :
    yakTwo.Send "client.example" envBuildFail =
      (sendFail "attachment read failed", []) ∧
    (yakTwo.Send "client.example" envAllOk).1 = (250, "accepted", none) := by
  constructor
  · exact (claim7_amended_error_propagation yakTwo "client.example"
      envBuildFail [0] "attachment read failed").1 rfl
  · have h := (claim7_amended_error_propagation yakTwo "client.example"
      envAllOk [77] "x").2.2.2.2.2.2.2.2 rfl rfl rfl (fun _ => rfl) rfl
      (by decide) rfl rfl rfl
    rw [h]
    rfl
